import Mathlib

/-!
Shallow embedding of the task-store core of the hackathon_2 repository
(src/models.py and src/store.py): the Task entity, the TaskStore state
(insertion-ordered id → Task dictionary plus next-id counter), every
public CRUD/query operation, and the JSON-file persistence layer
(_save_to_file / _load_from_file), together with proofs of the spec
claims about them.

Python datetimes are modelled as a pair of naturals (date component,
time-within-day component); datetime.isoformat / datetime.fromisoformat
are modelled as an injective encoding into a type of "ISO strings" in
which malformed (unparseable) strings are also representable.  The
Python dict is modelled as an association list with Python's insertion
-order semantics (assignment to a present key updates in place, to an
absent key appends; del removes preserving order of the rest).
-/

namespace Hackathon

/-- models.py Priority enum. -/
inductive Priority where
  | LOW
  | MEDIUM
  | HIGH
deriving DecidableEq

/-- models.py Status enum. -/
inductive Status where
  | PENDING
  | IN_PROGRESS
  | COMPLETED
deriving DecidableEq

/-- Model of a Python datetime: a date component (as in .date()) and a
time-of-day component. -/
structure DateTime where
  date : Nat
  time : Nat
deriving DecidableEq

/-- models.py Task dataclass. -/
structure Task where
  id : Nat
  title : String
  description : String
  priority : Priority
  status : Status
  due_date : Option DateTime
  created_at : DateTime
  updated_at : DateTime
  tags : List String
deriving DecidableEq

/-- Priority.value: the lowercase string token of the enum member. -/
def Priority.value : Priority → String
  | .LOW => "low"
  | .MEDIUM => "medium"
  | .HIGH => "high"

/-- Priority(token): enum lookup by value; ValueError (none) on an
unknown token. -/
def Priority.ofValue (s : String) : Option Priority :=
  if s = "low" then some .LOW
  else if s = "medium" then some .MEDIUM
  else if s = "high" then some .HIGH
  else none

/-- Status.value: the lowercase string token of the enum member. -/
def Status.value : Status → String
  | .PENDING => "pending"
  | .IN_PROGRESS => "in_progress"
  | .COMPLETED => "completed"

/-- Status(token): enum lookup by value; ValueError (none) on an
unknown token. -/
def Status.ofValue (s : String) : Option Status :=
  if s = "pending" then some .PENDING
  else if s = "in_progress" then some .IN_PROGRESS
  else if s = "completed" then some .COMPLETED
  else none

/-- A serialized date-time string.  datetime.isoformat always produces a
well-formed string denoting its datetime (the encoding is injective and
parseable); any other string is unparseable and makes
datetime.fromisoformat raise ValueError. -/
inductive IsoStr where
  | ofDT (d : DateTime)
  | malformed (s : String)
deriving DecidableEq

/-- datetime.isoformat. -/
def DateTime.isoformat (d : DateTime) : IsoStr := .ofDT d

/-- datetime.fromisoformat: parses a well-formed ISO string back to its
datetime, ValueError (none) on a malformed one. -/
def DateTime.fromisoformat : IsoStr → Option DateTime
  | .ofDT d => some d
  | .malformed _ => none

/-! Python dict (insertion-ordered) as an association list. -/

/-- The keys of the dict, in insertion order. -/
def dictKeys (l : List (Nat × Task)) : List Nat := l.map Prod.fst

/-- Python: k in d. -/
def dictContains (k : Nat) (l : List (Nat × Task)) : Bool :=
  l.any (fun p => p.1 == k)

/-- Python: d.get(k). -/
def dictGet (k : Nat) (l : List (Nat × Task)) : Option Task :=
  (l.find? (fun p => p.1 == k)).map Prod.snd

/-- Python: d[k] = v.  A present key is updated in place (position
preserved); an absent key is appended. -/
def dictInsert (k : Nat) (v : Task) (l : List (Nat × Task)) : List (Nat × Task) :=
  if dictContains k l then l.map (fun p => if p.1 == k then (k, v) else p)
  else l ++ [(k, v)]

/-- Python: del d[k] (order of remaining entries preserved). -/
def dictErase (k : Nat) (l : List (Nat × Task)) : List (Nat × Task) :=
  l.filter (fun p => ¬ p.1 = k)

/-- Python: list(d.values()). -/
def dictValues (l : List (Nat × Task)) : List Task := l.map Prod.snd

/-- The in-memory state of store.py TaskStore: the _tasks dict and the
_next_id counter. -/
structure TaskStore where
  tasks : List (Nat × Task)
  next_id : Nat
deriving DecidableEq

/-! Persistence: the JSON document written by _save_to_file and read by
_load_from_file.  A record field that may be absent from the JSON object
is an Option (none = missing key); enum fields are stored as their
string tokens and datetimes as ISO strings, exactly as in the source. -/

/-- One element of the "tasks" list of the persisted JSON document. -/
structure RawTask where
  id : Option Nat
  title : Option String
  description : Option String
  priority : Option String
  status : Option String
  due_date : Option IsoStr
  created_at : Option IsoStr
  updated_at : Option IsoStr
  tags : Option (List String)
deriving DecidableEq

/-- The persisted JSON document: next_id and the tasks list (either may
be missing; _load_from_file uses .get defaults for both). -/
structure RawDoc where
  next_id : Option Nat
  tasks : Option (List RawTask)
deriving DecidableEq

/-- What the backing file may hold: absent, text that is not valid JSON
(json.load raises JSONDecodeError), or a parsed document. -/
inductive FileContent where
  | missing
  | invalidJson (raw : String)
  | doc (d : RawDoc)
deriving DecidableEq

/-- The record _save_to_file writes for one task. -/
def Task.toRecord (t : Task) : RawTask :=
  { id := some t.id
    title := some t.title
    description := some t.description
    priority := some t.priority.value
    status := some t.status.value
    due_date := t.due_date.map DateTime.isoformat
    created_at := some t.created_at.isoformat
    updated_at := some t.updated_at.isoformat
    tags := some t.tags }

/-- The document _save_to_file serializes from the store state. -/
def saveDoc (s : TaskStore) : RawDoc :=
  { next_id := some s.next_id
    tasks := some ((dictValues s.tasks).map Task.toRecord) }

/-- Reconstruction of one Task from its record, as in the loop body of
_load_from_file: required keys raise KeyError (none) when missing,
optional ones take .get defaults; enum tokens and date strings are
parsed fallibly (ValueError on failure). -/
def parseRecord (r : RawTask) : Option Task := do
  let id ← r.id
  let title ← r.title
  let description := r.description.getD ""
  let pstr ← r.priority
  let priority ← Priority.ofValue pstr
  let sstr ← r.status
  let status ← Status.ofValue sstr
  let due_date ← match r.due_date with
    | none => some none
    | some s => (DateTime.fromisoformat s).map some
  let castr ← r.created_at
  let created_at ← DateTime.fromisoformat castr
  let uastr ← r.updated_at
  let updated_at ← DateTime.fromisoformat uastr
  let tags := r.tags.getD []
  pure { id, title, description, priority, status, due_date,
         created_at, updated_at, tags }

/-- The loop of _load_from_file: parse each record and insert it into
the dict keyed by its id; the first failure aborts the whole load. -/
def loadTasks (rs : List RawTask) : Option (List (Nat × Task)) :=
  rs.foldlM (fun acc r => (parseRecord r).map (fun t => dictInsert t.id t acc)) []

/-- Model of _load_from_file as run by __init__ (starting from the fresh state
tasks = {}, next_id = 1): a missing file keeps the fresh state; invalid
JSON or any record-level failure is caught and resets to the fresh
state; otherwise next_id is data.get("next_id", 1) and the tasks are
the parsed records keyed by id. -/
def loadFromFile (f : FileContent) : TaskStore :=
  match f with
  | .missing => { tasks := [], next_id := 1 }
  | .invalidJson _ => { tasks := [], next_id := 1 }
  | .doc d =>
    match loadTasks (d.tasks.getD []) with
    | some ts => { tasks := ts, next_id := d.next_id.getD 1 }
    | none => { tasks := [], next_id := 1 }

/-- A store together with its backing file: mutating operations write
the serialized document through to the file before returning. -/
structure World where
  store : TaskStore
  file : FileContent
deriving DecidableEq

/-- The file content after a write-through _save_to_file. -/
def TaskStore.persist (s : TaskStore) : FileContent := .doc (saveDoc s)

/-- TaskStore.__init__: load the store from the backing file. -/
def World.init (f : FileContent) : World := ⟨loadFromFile f, f⟩

/-- TaskStore.add_task: build the Task with id = next_id, status
PENDING, created_at = updated_at = now, tags or []; store it, increment
the counter, persist, return the task. -/
def World.add_task (w : World) (title description : String)
    (priority : Priority) (tags : Option (List String))
    (due_date : Option DateTime) (now : DateTime) : Task × World :=
  let task : Task :=
    { id := w.store.next_id, title := title, description := description
      priority := priority, status := .PENDING, due_date := due_date
      created_at := now, updated_at := now, tags := tags.getD [] }
  let s : TaskStore :=
    { tasks := dictInsert w.store.next_id task w.store.tasks
      next_id := w.store.next_id + 1 }
  (task, ⟨s, s.persist⟩)

/-- TaskStore.get_task: pure dict lookup. -/
def World.get_task (w : World) (task_id : Nat) : Option Task :=
  dictGet task_id w.store.tasks

/-- TaskStore.get_all_tasks. -/
def World.get_all_tasks (w : World) : List Task := dictValues w.store.tasks

/-- TaskStore.update_task: none for an unknown id (nothing changed,
nothing saved); otherwise overwrite each provided field, with
clear_due_date taking precedence over a provided due_date, refresh
updated_at, persist, and return the updated task. -/
def World.update_task (w : World) (task_id : Nat) (title : Option String)
    (description : Option String) (priority : Option Priority)
    (status : Option Status) (due_date : Option DateTime)
    (clear_due_date : Bool) (tags : Option (List String))
    (now : DateTime) : Option Task × World :=
  match dictGet task_id w.store.tasks with
  | none => (none, w)
  | some task =>
    let task := { task with title := title.getD task.title }
    let task := { task with description := description.getD task.description }
    let task := { task with priority := priority.getD task.priority }
    let task := { task with status := status.getD task.status }
    let task :=
      if clear_due_date then { task with due_date := none }
      else match due_date with
        | some d => { task with due_date := some d }
        | none => task
    let task := { task with tags := tags.getD task.tags }
    let task := { task with updated_at := now }
    let s : TaskStore := { w.store with tasks := dictInsert task_id task w.store.tasks }
    (some task, ⟨s, s.persist⟩)

/-- TaskStore.mark_completed: sugar for update_task(id, status=COMPLETED). -/
def World.mark_completed (w : World) (task_id : Nat) (now : DateTime) :
    Option Task × World :=
  w.update_task task_id none none none (some .COMPLETED) none false none now

/-- TaskStore.delete_task: remove and persist when the id is present
(true); otherwise false with nothing changed and nothing saved. -/
def World.delete_task (w : World) (task_id : Nat) : Bool × World :=
  if dictContains task_id w.store.tasks then
    let s : TaskStore := { w.store with tasks := dictErase task_id w.store.tasks }
    (true, ⟨s, s.persist⟩)
  else (false, w)

/-- TaskStore.clear_all: empty the dict, persist, return the count of
removed tasks; the counter is untouched. -/
def World.clear_all (w : World) : Nat × World :=
  let s : TaskStore := { w.store with tasks := [] }
  (w.store.tasks.length, ⟨s, s.persist⟩)

/-- TaskStore.get_overdue_tasks: tasks with a due date whose date
component is strictly before today and whose status is not COMPLETED. -/
def World.get_overdue_tasks (w : World) (today : Nat) : List Task :=
  (dictValues w.store.tasks).filter (fun t =>
    match t.due_date with
    | some d => decide (d.date < today) && decide (¬ t.status = .COMPLETED)
    | none => false)

/-! Store well-formedness: dict keys are pairwise distinct and every
stored task's id field equals its key.  This holds for every store the
program can reach (including one loaded from an arbitrary well-formed
file, since _load_from_file keys each task by its own id). -/

/-- Keys are nodup and each task is keyed by its own id. -/
def KeysOk (l : List (Nat × Task)) : Prop :=
  (dictKeys l).Nodup ∧ ∀ p ∈ l, p.2.id = p.1

instance : DecidablePred KeysOk := fun l =>
  inferInstanceAs (Decidable (_ ∧ _))

/-- Well-formedness of a store state. -/
def WF (s : TaskStore) : Prop := KeysOk s.tasks

/-- The worlds reachable from store construction through the public
mutating operations. -/
inductive Reachable : World → Prop where
  | init (f : FileContent) : Reachable (World.init f)
  | add {w : World} (h : Reachable w) (title description : String)
      (priority : Priority) (tags : Option (List String))
      (due_date : Option DateTime) (now : DateTime) :
      Reachable (w.add_task title description priority tags due_date now).2
  | update {w : World} (h : Reachable w) (task_id : Nat)
      (title description : Option String) (priority : Option Priority)
      (status : Option Status) (due_date : Option DateTime)
      (clear_due_date : Bool) (tags : Option (List String)) (now : DateTime) :
      Reachable (w.update_task task_id title description priority status
        due_date clear_due_date tags now).2
  | mark {w : World} (h : Reachable w) (task_id : Nat) (now : DateTime) :
      Reachable (w.mark_completed task_id now).2
  | del {w : World} (h : Reachable w) (task_id : Nat) :
      Reachable (w.delete_task task_id).2
  | clear {w : World} (h : Reachable w) : Reachable w.clear_all.2

/-! Sequences of create / delete / clear calls, for the monotonic-id
claim. -/

/-- One call in a sequence of mutating operations on the store. -/
inductive Op where
  | addOp (title description : String) (priority : Priority)
      (tags : Option (List String)) (due_date : Option DateTime)
      (now : DateTime)
  | delOp (task_id : Nat)
  | clearOp

/-- Execute one call. -/
def applyOp (w : World) : Op → World
  | .addOp title description priority tags due_date now =>
    (w.add_task title description priority tags due_date now).2
  | .delOp task_id => (w.delete_task task_id).2
  | .clearOp => w.clear_all.2

/-- Execute a sequence of calls. -/
def run (w : World) (ops : List Op) : World := ops.foldl applyOp w

/-- Number of create calls in a sequence. -/
def countAdds : List Op → Nat
  | [] => 0
  | .addOp _ _ _ _ _ _ :: ops => countAdds ops + 1
  | .delOp _ :: ops => countAdds ops
  | .clearOp :: ops => countAdds ops

/-- The ids of the tasks returned by the create calls of a sequence, in
call order. -/
def createdIds (w : World) : List Op → List Nat
  | [] => []
  | .addOp title description priority tags due_date now :: ops =>
    (w.add_task title description priority tags due_date now).1.id ::
      createdIds (w.add_task title description priority tags due_date now).2 ops
  | .delOp task_id :: ops => createdIds (w.delete_task task_id).2 ops
  | .clearOp :: ops => createdIds w.clear_all.2 ops

/-- Every key present in the store is below the next-id counter (true of
a fresh store and preserved by every operation). -/
def IdBound (s : TaskStore) : Prop :=
  ∀ k ∈ dictKeys s.tasks, k < s.next_id

instance (s : TaskStore) : Decidable (IdBound s) :=
  inferInstanceAs (Decidable (∀ k ∈ dictKeys s.tasks, k < s.next_id))

/-- Unreadable backing-file content: text that json.load rejects, or a
document in which some record fails to reconstruct (missing required
key, unknown enum token, unparseable date string — exactly the
exceptions the except clause of _load_from_file catches).  A missing
file is readable: it is the normal empty start. -/
def Unreadable : FileContent → Prop
  | .missing => False
  | .invalidJson _ => True
  | .doc d => loadTasks (d.tasks.getD []) = none

instance : DecidablePred Unreadable := fun f =>
  match f with
  | .missing => isFalse (fun h => h)
  | .invalidJson _ => isTrue trivial
  | .doc d => inferInstanceAs (Decidable (_ = _))

/-! Concrete data used by witnesses and counterexamples. -/

/-- A fresh store (no backing file). -/
def wEmpty : World := World.init .missing

/-- One create applied to the fresh store. -/
def wOne : World :=
  (wEmpty.add_task "Write report" "Q1" .HIGH (some ["work"]) (some ⟨100, 30⟩) ⟨50, 10⟩).2

/-- A second create on top of wOne. -/
def wTwo : World :=
  (wOne.add_task "Email team" "" .MEDIUM none none ⟨50, 11⟩).2

/-- The task stored under id 1 in wOne. -/
def taskOne : Task :=
  { id := 1, title := "Write report", description := "Q1", priority := .HIGH,
    status := .PENDING, due_date := some ⟨100, 30⟩, created_at := ⟨50, 10⟩,
    updated_at := ⟨50, 10⟩, tags := ["work"] }

/-- A concrete create call. -/
def opA : Op := .addOp "a" "" .MEDIUM none none ⟨0, 0⟩

/-- Another concrete create call. -/
def opB : Op := .addOp "b" "" .LOW none none ⟨0, 1⟩

/-- A create / delete / create sequence. -/
def opsAll : List Op := [opA, .delOp 1, opB]

/-- Prefix of opsAll after which task 1 exists. -/
def opsPre : List Op := [opA]

/-- The remainder of opsAll: delete task 1, then create again. -/
def opsSuf : List Op := [.delOp 1, opB]

/-- A record carrying an enum token that Priority() rejects with
ValueError. -/
def badRec : RawTask :=
  { id := some 1
    title := some "x"
    description := none
    priority := some "urgent"
    status := some "pending"
    due_date := none
    created_at := some (DateTime.isoformat ⟨1, 2⟩)
    updated_at := some (DateTime.isoformat ⟨1, 2⟩)
    tags := none }

/-- A structurally valid document whose single record is badRec. -/
def badDoc : RawDoc :=
  { next_id := some 7
    tasks := some [badRec] }

/-! Basic equations and lemmas for the dict model. -/

theorem dictContains_nil (k : Nat) : dictContains k [] = false := rfl

theorem dictContains_cons (k : Nat) (p : Nat × Task) (l : List (Nat × Task)) :
    dictContains k (p :: l) = ((p.1 == k) || dictContains k l) := by
  simp [dictContains]

theorem dictGet_nil (k : Nat) : dictGet k [] = none := rfl

theorem dictGet_cons (k : Nat) (p : Nat × Task) (l : List (Nat × Task)) :
    dictGet k (p :: l) = if p.1 = k then some p.2 else dictGet k l := by
  by_cases h : p.1 = k
  · rw [if_pos h]
    unfold dictGet
    rw [List.find?_cons_of_pos _ (by simpa using h)]
    rfl
  · rw [if_neg h]
    unfold dictGet
    rw [List.find?_cons_of_neg _ (by simpa using h)]

theorem dictContains_iff {k : Nat} {l : List (Nat × Task)} :
    dictContains k l = true ↔ k ∈ dictKeys l := by
  induction l with
  | nil => simp [dictContains_nil, dictKeys]
  | cons p l ih =>
    rw [dictContains_cons]
    simp only [dictKeys, List.map_cons, List.mem_cons, Bool.or_eq_true, beq_iff_eq]
    rw [ih]
    simp [dictKeys, eq_comm]

theorem dictGet_eq_none_iff {k : Nat} {l : List (Nat × Task)} :
    dictGet k l = none ↔ dictContains k l = false := by
  induction l with
  | nil => simp [dictGet_nil, dictContains_nil]
  | cons p l ih =>
    rw [dictGet_cons, dictContains_cons]
    by_cases h : p.1 = k
    · simp [h]
    · simp only [if_neg h, ih]
      simp [h]

theorem dictGet_mem {k : Nat} {l : List (Nat × Task)} {v : Task}
    (h : dictGet k l = some v) : (k, v) ∈ l := by
  induction l with
  | nil => rw [dictGet_nil] at h; cases h
  | cons p l ih =>
    rw [dictGet_cons] at h
    by_cases hp : p.1 = k
    · rw [if_pos hp] at h
      have hkv : (k, v) = p := by
        obtain ⟨a, b⟩ := p
        simp only at hp
        simp only [Option.some.injEq] at h
        rw [← hp, ← h]
      rw [hkv]
      exact List.mem_cons_self _ _
    · rw [if_neg hp] at h
      exact List.mem_cons_of_mem _ (ih h)

theorem dictKeys_insert (k : Nat) (v : Task) (l : List (Nat × Task)) :
    dictKeys (dictInsert k v l) =
      if dictContains k l then dictKeys l else dictKeys l ++ [k] := by
  unfold dictInsert
  split
  · simp only [dictKeys, List.map_map]
    refine List.map_congr_left ?_
    intro p _
    by_cases hp : p.1 = k
    · simp [hp]
    · simp [hp]
  · simp [dictKeys]

theorem mem_dictInsert {p : Nat × Task} {k : Nat} {v : Task}
    {l : List (Nat × Task)} (h : p ∈ dictInsert k v l) :
    p = (k, v) ∨ p ∈ l := by
  unfold dictInsert at h
  split at h
  · obtain ⟨q, hq, hqe⟩ := List.mem_map.mp h
    by_cases hqk : q.1 = k
    · left; rw [← hqe]; simp [hqk]
    · right
      have : q = p := by simpa [hqk] using hqe
      rwa [← this]
  · rcases List.mem_append.mp h with hl | hr
    · right; exact hl
    · left; simpa using hr

theorem dictInsert_of_not_contains {k : Nat} {l : List (Nat × Task)}
    (h : dictContains k l = false) (v : Task) :
    dictInsert k v l = l ++ [(k, v)] := by
  simp [dictInsert, h]

theorem dictGet_insert_self (k : Nat) (v : Task) :
    ∀ l : List (Nat × Task), dictGet k (dictInsert k v l) = some v := by
  intro l
  unfold dictInsert
  cases hc : dictContains k l with
  | false =>
    simp only [Bool.false_eq_true, if_false]
    induction l with
    | nil => simp [dictGet_cons]
    | cons p l ih =>
      rw [dictContains_cons, Bool.or_eq_false_iff] at hc
      rw [List.cons_append, dictGet_cons, if_neg (by simpa using hc.1)]
      exact ih hc.2
  | true =>
    simp only [if_true]
    induction l with
    | nil => rw [dictContains_nil] at hc; cases hc
    | cons p l ih =>
      rw [dictContains_cons] at hc
      by_cases hp : p.1 = k
      · rw [List.map_cons, if_pos (by simpa using hp), dictGet_cons, if_pos rfl]
      · have hc' : dictContains k l = true := by
          simpa [hp] using hc
        rw [List.map_cons, if_neg (by simpa using hp), dictGet_cons, if_neg hp]
        exact ih hc'

theorem keysOk_nil : KeysOk [] := by
  constructor
  · simp [dictKeys]
  · intro p hp; cases hp

theorem keysOk_insert {l : List (Nat × Task)} (h : KeysOk l) {k : Nat}
    {v : Task} (hv : v.id = k) : KeysOk (dictInsert k v l) := by
  constructor
  · rw [dictKeys_insert]
    split
    · exact h.1
    next hc =>
      rw [List.nodup_append]
      refine ⟨h.1, List.nodup_singleton k, ?_⟩
      intro a ha hb
      have : a = k := by simpa using hb
      rw [this] at ha
      rw [Bool.not_eq_true] at hc
      exact absurd (dictContains_iff.mpr ha) (by simp [hc])
  · intro p hp
    rcases mem_dictInsert hp with rfl | hp'
    · simpa using hv
    · exact h.2 p hp'

theorem keysOk_erase {l : List (Nat × Task)} (h : KeysOk l) (k : Nat) :
    KeysOk (dictErase k l) := by
  constructor
  · have hsub : List.Sublist (dictErase k l) l := List.filter_sublist l
    exact h.1.sublist (hsub.map Prod.fst)
  · intro p hp
    exact h.2 p (List.mem_of_mem_filter hp)

/-! Well-formedness of loaded and reachable stores. -/

theorem loadTasks_keysOk_go :
    ∀ (rs : List RawTask) (acc l : List (Nat × Task)), KeysOk acc →
      List.foldlM (fun acc r => (parseRecord r).map (fun t => dictInsert t.id t acc))
        acc rs = some l → KeysOk l := by
  intro rs
  induction rs with
  | nil =>
    intro acc l hacc h
    simp only [List.foldlM_nil] at h
    cases h
    exact hacc
  | cons r rs ih =>
    intro acc l hacc h
    rw [List.foldlM_cons] at h
    cases hr : parseRecord r with
    | none => rw [hr] at h; cases h
    | some t =>
      rw [hr] at h
      exact ih (dictInsert t.id t acc) l (keysOk_insert hacc rfl) h

theorem loadTasks_keysOk {rs : List RawTask} {l : List (Nat × Task)}
    (h : loadTasks rs = some l) : KeysOk l :=
  loadTasks_keysOk_go rs [] l keysOk_nil h

theorem wf_loadFromFile (f : FileContent) : WF (loadFromFile f) := by
  cases f with
  | missing => exact keysOk_nil
  | invalidJson raw => exact keysOk_nil
  | doc d =>
    have hred : loadFromFile (.doc d) =
        match loadTasks (d.tasks.getD []) with
        | some ts => { tasks := ts, next_id := d.next_id.getD 1 }
        | none => { tasks := [], next_id := 1 } := rfl
    rw [hred]
    cases h : loadTasks (d.tasks.getD []) with
    | none => exact keysOk_nil
    | some ts => exact loadTasks_keysOk h

theorem wf_add (w : World) (h : WF w.store) (title description : String)
    (priority : Priority) (tags : Option (List String))
    (due_date : Option DateTime) (now : DateTime) :
    WF (w.add_task title description priority tags due_date now).2.store :=
  keysOk_insert h rfl

theorem wf_update (w : World) (h : WF w.store) (task_id : Nat)
    (title description : Option String) (priority : Option Priority)
    (status : Option Status) (due_date : Option DateTime)
    (clear_due_date : Bool) (tags : Option (List String)) (now : DateTime) :
    WF (w.update_task task_id title description priority status due_date
      clear_due_date tags now).2.store := by
  unfold World.update_task
  cases hg : dictGet task_id w.store.tasks with
  | none => exact h
  | some t =>
    have hid : t.id = task_id := h.2 (task_id, t) (dictGet_mem hg)
    apply keysOk_insert h
    cases clear_due_date <;> cases due_date <;> simp [hid]

theorem wf_del (w : World) (h : WF w.store) (task_id : Nat) :
    WF (w.delete_task task_id).2.store := by
  unfold World.delete_task
  split
  · exact keysOk_erase h task_id
  · exact h

theorem wf_clear (w : World) (h : WF w.store) : WF w.clear_all.2.store :=
  keysOk_nil

theorem reachable_wf {w : World} (h : Reachable w) : WF w.store := by
  induction h with
  | init f => exact wf_loadFromFile f
  | add h title description priority tags due_date now ih =>
    exact wf_add _ ih title description priority tags due_date now
  | update h task_id title description priority status due_date cl tags now ih =>
    exact wf_update _ ih task_id title description priority status due_date cl tags now
  | mark h task_id now ih =>
    exact wf_update _ ih task_id none none none (some .COMPLETED) none false none now
  | del h task_id ih => exact wf_del _ ih task_id
  | clear h ih => exact wf_clear _ ih

/-! Serialization round trip. -/

theorem parse_toRecord (t : Task) : parseRecord t.toRecord = some t := by
  obtain ⟨id, title, description, priority, status, due_date, ca, ua, tags⟩ := t
  cases priority <;> cases status <;> cases due_date <;> rfl

theorem loadTasks_append :
    ∀ (l acc : List (Nat × Task)), (∀ p ∈ l, p.2.id = p.1) →
      (dictKeys acc ++ dictKeys l).Nodup →
      List.foldlM (fun acc r => (parseRecord r).map (fun t => dictInsert t.id t acc))
        acc ((dictValues l).map Task.toRecord) = some (acc ++ l) := by
  intro l
  induction l with
  | nil =>
    intro acc _ _
    simp [dictValues]
  | cons p l ih =>
    intro acc hid hnd
    obtain ⟨k, t⟩ := p
    have ht : t.id = k := hid (k, t) (List.mem_cons_self _ _)
    have hknotin : ¬ k ∈ dictKeys acc := by
      rw [List.nodup_append] at hnd
      intro hk
      exact hnd.2.2 hk (by simp [dictKeys])
    have hcont : dictContains k acc = false := by
      rw [← Bool.not_eq_true, dictContains_iff]
      exact hknotin
    have hnd' : (dictKeys (acc ++ [(k, t)]) ++ dictKeys l).Nodup := by
      simp only [dictKeys, List.map_append, List.map_cons, List.map_nil] at hnd ⊢
      simpa [List.append_assoc] using hnd
    have hrec := ih (acc ++ [(k, t)]) (fun q hq => hid q (List.mem_cons_of_mem _ hq)) hnd'
    have hstep :
        List.foldlM (fun acc r => (parseRecord r).map (fun t => dictInsert t.id t acc))
          acc ((dictValues ((k, t) :: l)).map Task.toRecord) =
        List.foldlM (fun acc r => (parseRecord r).map (fun t => dictInsert t.id t acc))
          (dictInsert t.id t acc) ((dictValues l).map Task.toRecord) := by
      simp only [dictValues, List.map_cons, List.foldlM_cons, parse_toRecord,
        Option.map_some']
      rfl
    rw [hstep, ht, dictInsert_of_not_contains hcont, hrec]
    simp

theorem load_save {s : TaskStore} (h : WF s) :
    loadFromFile (.doc (saveDoc s)) = s := by
  have hload : loadTasks ((dictValues s.tasks).map Task.toRecord) = some s.tasks := by
    unfold loadTasks
    have := loadTasks_append s.tasks [] h.2 (by simpa [dictKeys] using h.1)
    simpa using this
  unfold loadFromFile saveDoc
  simp only [Option.getD_some, hload]

theorem add_next_id (w : World) (title description : String)
    (priority : Priority) (tags : Option (List String))
    (due_date : Option DateTime) (now : DateTime) :
    (w.add_task title description priority tags due_date now).2.store.next_id =
      w.store.next_id + 1 := rfl

theorem delete_next_id (w : World) (task_id : Nat) :
    (w.delete_task task_id).2.store.next_id = w.store.next_id := by
  unfold World.delete_task
  split <;> rfl

theorem clear_next_id (w : World) : w.clear_all.2.store.next_id = w.store.next_id :=
  rfl

theorem next_id_le_applyOp (w : World) (op : Op) :
    w.store.next_id ≤ (applyOp w op).store.next_id := by
  cases op with
  | addOp title description priority tags due_date now =>
    rw [applyOp, add_next_id]
    exact Nat.le_succ _
  | delOp task_id => rw [applyOp, delete_next_id]
  | clearOp => rw [applyOp, clear_next_id]

theorem next_id_le_run (w : World) (ops : List Op) :
    w.store.next_id ≤ (run w ops).store.next_id := by
  induction ops generalizing w with
  | nil => exact Nat.le_refl _
  | cons op ops ih =>
    calc w.store.next_id ≤ (applyOp w op).store.next_id := next_id_le_applyOp w op
    _ ≤ (run (applyOp w op) ops).store.next_id := ih (applyOp w op)

theorem createdIds_ge {x : Nat} :
    ∀ (ops : List Op) (w : World), x ∈ createdIds w ops → w.store.next_id ≤ x := by
  intro ops
  induction ops with
  | nil => intro w h; cases h
  | cons op ops ih =>
    intro w h
    cases op with
    | addOp title description priority tags due_date now =>
      rw [createdIds] at h
      rcases List.mem_cons.mp h with rfl | h'
      · exact Nat.le_refl _
      · have := ih _ h'
        rw [add_next_id] at this
        omega
    | delOp task_id =>
      rw [createdIds] at h
      have := ih _ h
      rwa [delete_next_id] at this
    | clearOp =>
      rw [createdIds] at h
      have := ih _ h
      rwa [clear_next_id] at this

theorem idBound_applyOp {w : World} (h : IdBound w.store) (op : Op) :
    IdBound (applyOp w op).store := by
  cases op with
  | addOp title description priority tags due_date now =>
    intro k hk
    rw [applyOp] at hk ⊢
    rw [add_next_id]
    unfold World.add_task at hk
    simp only at hk
    rw [dictKeys_insert] at hk
    revert hk
    split
    · intro hk
      have := h k hk
      omega
    · intro hk
      rcases List.mem_append.mp hk with hl | hr
      · have := h k hl
        omega
      · have : k = w.store.next_id := by simpa using hr
        omega
  | delOp task_id =>
    intro k hk
    rw [applyOp] at hk ⊢
    rw [delete_next_id]
    unfold World.delete_task at hk
    revert hk
    split
    · intro hk
      simp only at hk
      have : k ∈ dictKeys w.store.tasks := by
        unfold dictKeys at hk ⊢
        unfold dictErase at hk
        obtain ⟨p, hp, rfl⟩ := List.mem_map.mp hk
        exact List.mem_map.mpr ⟨p, List.mem_of_mem_filter hp, rfl⟩
      exact h k this
    · intro hk
      exact h k hk
  | clearOp =>
    intro k hk
    rw [applyOp] at hk
    unfold World.clear_all at hk
    simp [dictKeys] at hk

theorem idBound_run {w : World} (h : IdBound w.store) (ops : List Op) :
    IdBound (run w ops).store := by
  induction ops generalizing w with
  | nil => exact h
  | cons op ops ih => exact ih (idBound_applyOp h op)

theorem createdIds_formula :
    ∀ (ops : List Op) (w : World),
      createdIds w ops = (List.range (countAdds ops)).map (fun i => w.store.next_id + i) := by
  intro ops
  induction ops with
  | nil => intro w; rfl
  | cons op ops ih =>
    intro w
    cases op with
    | addOp title description priority tags due_date now =>
      rw [createdIds, countAdds, ih]
      rw [add_next_id, List.range_succ_eq_map]
      simp only [List.map_cons, List.map_map, Nat.add_zero]
      congr 1
      refine List.map_congr_left ?_
      intro i _
      simp [Function.comp]
      omega
    | delOp task_id =>
      rw [createdIds, countAdds, ih, delete_next_id]
    | clearOp =>
      rw [createdIds, countAdds, ih, clear_next_id]

/-! The spec claims. -/

/-- Claim C1, as stated, is false: TaskStore.add_task performs no title
validation and there is no ValidationError anywhere in the repository.
At the concrete input (fresh store, empty title) the create succeeds
with full side effects: the task is stored under id 1 with an empty
title, the next-id counter becomes 2, and the new collection is
persisted to the backing file. -/
theorem claim_c1_counterexample :
    (wEmpty.add_task "" "desc" .MEDIUM none none ⟨0, 0⟩).2.store ≠ wEmpty.store ∧
    (wEmpty.add_task "" "desc" .MEDIUM none none ⟨0, 0⟩).2.store.next_id = 2 ∧
    dictGet 1 (wEmpty.add_task "" "desc" .MEDIUM none none ⟨0, 0⟩).2.store.tasks =
      some (wEmpty.add_task "" "desc" .MEDIUM none none ⟨0, 0⟩).1 ∧
    (wEmpty.add_task "" "desc" .MEDIUM none none ⟨0, 0⟩).1.title = "" ∧
    (wEmpty.add_task "" "desc" .MEDIUM none none ⟨0, 0⟩).2.file ≠ wEmpty.file := by
  refine ⟨?_, rfl, rfl, rfl, ?_⟩ <;> decide

/-- Claim C1 amended: the store's create operation does not validate
the title.  A call with an empty title succeeds exactly like any other
create: it returns a task with empty title and id = the counter value,
stores it, increments the counter by one, and persists the new
collection. -/
theorem claim_c1_amended (w : World) (description : String)
    (priority : Priority) (tags : Option (List String))
    (due_date : Option DateTime) (now : DateTime) :
    (w.add_task "" description priority tags due_date now).1 =
      { id := w.store.next_id, title := "", description := description,
        priority := priority, status := .PENDING, due_date := due_date,
        created_at := now, updated_at := now, tags := tags.getD [] } ∧
    (w.add_task "" description priority tags due_date now).2.store.tasks =
      dictInsert w.store.next_id
        (w.add_task "" description priority tags due_date now).1 w.store.tasks ∧
    (w.add_task "" description priority tags due_date now).2.store.next_id =
      w.store.next_id + 1 ∧
    (w.add_task "" description priority tags due_date now).2.file =
      TaskStore.persist (w.add_task "" description priority tags due_date now).2.store :=
  ⟨rfl, rfl, rfl, rfl⟩

/-- Claim C2: for every reachable store state, serializing the
collection and counter to the backing file and constructing a new store
from that file reproduces the identical collection (same entries, same
order) and the same next-id counter. -/
theorem claim_c2_round_trip {w : World} (h : Reachable w) :
    (World.init (TaskStore.persist w.store)).store = w.store := by
  exact load_save (reachable_wf h)

/-- Witness for C2 at a store populated by two creates. -/
theorem claim_c2_witness :
    Reachable wTwo ∧ (World.init (TaskStore.persist wTwo.store)).store = wTwo.store := by
  have h1 : Reachable wEmpty := Reachable.init .missing
  have h2 : Reachable wOne :=
    Reachable.add h1 "Write report" "Q1" .HIGH (some ["work"]) (some ⟨100, 30⟩) ⟨50, 10⟩
  have h3 : Reachable wTwo :=
    Reachable.add h2 "Email team" "" .MEDIUM none none ⟨50, 11⟩
  exact ⟨h3, claim_c2_round_trip h3⟩

/-- Claim C3: from any store whose stored ids are below the counter
(true of a fresh store), over any sequence of create / delete /
clear_all calls: the ids handed out by the creates are exactly
counter, counter+1, counter+2, ... (strictly increasing by exactly 1
per create, deletes and clears notwithstanding); an id held by a task
at any intermediate point is never handed out by a later create (so a
deleted id is never reused); and neither delete_task nor clear_all
changes the next-id counter. -/
theorem claim_c3_monotonic_ids (w : World) (ops opsA opsB : List Op) (i : Nat)
    (h : IdBound w.store) :
    createdIds w ops =
      (List.range (countAdds ops)).map (fun j => w.store.next_id + j) ∧
    (i ∈ dictKeys (run w opsA).store.tasks → ¬ i ∈ createdIds (run w opsA) opsB) ∧
    (∀ task_id, (w.delete_task task_id).2.store.next_id = w.store.next_id) ∧
    w.clear_all.2.store.next_id = w.store.next_id := by
  refine ⟨createdIds_formula ops w, ?_, fun task_id => delete_next_id w task_id,
    clear_next_id w⟩
  intro hmem hin
  have hlt := idBound_run h opsA i hmem
  have hge := createdIds_ge opsB (run w opsA) hin
  omega

/-- Witness for C3: fresh store, create; delete 1; create — the creates
return ids 1 and 2, and id 1 (present after the first create, then
deleted) is not assigned again. -/
theorem claim_c3_witness :
    IdBound wEmpty.store ∧
    (createdIds wEmpty opsAll =
      (List.range (countAdds opsAll)).map (fun j => wEmpty.store.next_id + j) ∧
    (1 ∈ dictKeys (run wEmpty opsPre).store.tasks →
      ¬ 1 ∈ createdIds (run wEmpty opsPre) opsSuf) ∧
    (∀ task_id, (wEmpty.delete_task task_id).2.store.next_id = wEmpty.store.next_id) ∧
    wEmpty.clear_all.2.store.next_id = wEmpty.store.next_id) :=
  ⟨by decide, claim_c3_monotonic_ids wEmpty opsAll opsPre opsSuf 1 (by decide)⟩

/-- Claim C4: constructing the store from any structurally unreadable
backing file (invalid JSON, or a document with a record whose required
key is missing or whose enum token or date string does not parse) is
total — the exception is caught — and yields the empty collection with
the counter equal to 1. -/
theorem claim_c4_corrupt_recovery (f : FileContent) (h : Unreadable f) :
    loadFromFile f = { tasks := [], next_id := 1 } ∧
    World.init f = ⟨{ tasks := [], next_id := 1 }, f⟩ := by
  have h1 : loadFromFile f = { tasks := [], next_id := 1 } := by
    cases f with
    | missing => cases h
    | invalidJson raw => rfl
    | doc d =>
      have h2 : loadTasks (d.tasks.getD []) = none := h
      have hred : loadFromFile (.doc d) =
          match loadTasks (d.tasks.getD []) with
          | some ts => { tasks := ts, next_id := d.next_id.getD 1 }
          | none => { tasks := [], next_id := 1 } := rfl
      rw [hred, h2]
  refine ⟨h1, ?_⟩
  have : World.init f = ⟨loadFromFile f, f⟩ := rfl
  rw [this, h1]

/-- Witness for C4 at badDoc, whose record holds the unknown priority
token "urgent". -/
theorem claim_c4_witness :
    Unreadable (.doc badDoc) ∧
    (loadFromFile (.doc badDoc) = { tasks := [], next_id := 1 } ∧
     World.init (.doc badDoc) = ⟨{ tasks := [], next_id := 1 }, .doc badDoc⟩) :=
  ⟨by decide, claim_c4_corrupt_recovery (.doc badDoc) (by decide)⟩

/-- Claim C5: updating a present task with only a new status yields
exactly the old task with its status replaced and updated_at refreshed
— title, description, priority, due_date and tags are untouched — and
stores it back in place. -/
theorem claim_c5_partial_update_frame (w : World) (task_id : Nat) (t : Task)
    (st : Status) (now : DateTime)
    (h : dictGet task_id w.store.tasks = some t) :
    w.update_task task_id none none none (some st) none false none now =
      (some { t with status := st, updated_at := now },
       ⟨{ w.store with
            tasks := dictInsert task_id { t with status := st, updated_at := now }
              w.store.tasks },
        TaskStore.persist
          { w.store with
              tasks := dictInsert task_id { t with status := st, updated_at := now }
                w.store.tasks }⟩) := by
  unfold World.update_task
  rw [h]
  rfl

/-- Witness for C5: complete task 1 of wOne; everything but status and
updated_at is unchanged. -/
theorem claim_c5_witness :
    dictGet 1 wOne.store.tasks = some taskOne ∧
    wOne.update_task 1 none none none (some .COMPLETED) none false none ⟨60, 0⟩ =
      (some { taskOne with status := .COMPLETED, updated_at := ⟨60, 0⟩ },
       ⟨{ wOne.store with
            tasks := dictInsert 1 { taskOne with status := .COMPLETED, updated_at := ⟨60, 0⟩ }
              wOne.store.tasks },
        TaskStore.persist
          { wOne.store with
              tasks := dictInsert 1 { taskOne with status := .COMPLETED, updated_at := ⟨60, 0⟩ }
                wOne.store.tasks }⟩) :=
  ⟨by decide,
   claim_c5_partial_update_frame wOne 1 taskOne .COMPLETED ⟨60, 0⟩ (by decide)⟩

/-- Claim C6: when update_task receives both a due date D and
clear_due_date = true, the clear flag wins: the returned task and the
stored task have no due date, whatever D and the other arguments are. -/
theorem claim_c6_clear_precedence (w : World) (task_id : Nat) (t : Task)
    (title description : Option String) (priority : Option Priority)
    (status : Option Status) (D : DateTime) (tags : Option (List String))
    (now : DateTime) (h : dictGet task_id w.store.tasks = some t) :
    ((w.update_task task_id title description priority status (some D) true tags
        now).1).map Task.due_date = some none ∧
    (dictGet task_id
        (w.update_task task_id title description priority status (some D) true tags
          now).2.store.tasks).map Task.due_date = some none := by
  unfold World.update_task
  rw [h]
  refine ⟨rfl, ?_⟩
  rw [dictGet_insert_self]
  rfl

/-- Witness for C6 on task 1 of wOne, which does carry a due date. -/
theorem claim_c6_witness :
    dictGet 1 wOne.store.tasks = some taskOne ∧
    (((wOne.update_task 1 none none none none (some ⟨999, 0⟩) true none
        ⟨60, 0⟩).1).map Task.due_date = some none ∧
     (dictGet 1
        (wOne.update_task 1 none none none none (some ⟨999, 0⟩) true none
          ⟨60, 0⟩).2.store.tasks).map Task.due_date = some none) :=
  ⟨by decide,
   claim_c6_clear_precedence wOne 1 taskOne none none none none ⟨999, 0⟩ none
     ⟨60, 0⟩ (by decide)⟩

/-- Claim C7: get_overdue_tasks returns exactly the stored tasks that
have a due date whose date component is strictly before today and whose
status is not COMPLETED; in particular a PENDING task due yesterday is
included, while a COMPLETED task due yesterday and any task due
tomorrow are not. -/
theorem claim_c7_overdue (w : World) (today : Nat) (t : Task) :
    t ∈ w.get_overdue_tasks today ↔
      t ∈ dictValues w.store.tasks ∧
      (∃ d, t.due_date = some d ∧ d.date < today) ∧
      ¬ t.status = .COMPLETED := by
  unfold World.get_overdue_tasks
  rw [List.mem_filter]
  constructor
  · rintro ⟨hm, hb⟩
    cases hdd : t.due_date with
    | none => rw [hdd] at hb; cases hb
    | some d =>
      rw [hdd] at hb
      simp only [Bool.and_eq_true, decide_eq_true_eq] at hb
      exact ⟨hm, ⟨d, rfl, hb.1⟩, hb.2⟩
  · rintro ⟨hm, ⟨d, hdd, hlt⟩, hst⟩
    refine ⟨hm, ?_⟩
    rw [hdd]
    simp [hlt, hst]

/-- Claim C8: operations on an id that is absent never raise: get
returns none, update returns none leaving the store and the backing
file exactly as they were, delete returns false leaving them as they
were, and deleting the same absent id again returns false again. -/
theorem claim_c8_absent_id (w : World) (task_id : Nat)
    (title description : Option String) (priority : Option Priority)
    (status : Option Status) (due_date : Option DateTime) (cl : Bool)
    (tags : Option (List String)) (now : DateTime)
    (h : dictGet task_id w.store.tasks = none) :
    w.get_task task_id = none ∧
    w.update_task task_id title description priority status due_date cl tags now =
      (none, w) ∧
    w.delete_task task_id = (false, w) ∧
    (w.delete_task task_id).2.delete_task task_id =
      (false, (w.delete_task task_id).2) := by
  have hc : dictContains task_id w.store.tasks = false := dictGet_eq_none_iff.mp h
  have hdel : w.delete_task task_id = (false, w) := by
    unfold World.delete_task
    rw [hc]
    rfl
  refine ⟨h, ?_, hdel, ?_⟩
  · unfold World.update_task
    rw [h]
  · rw [hdel]
    exact hdel

/-- Witness for C8: id 5 is absent from the fresh store. -/
theorem claim_c8_witness :
    dictGet 5 wEmpty.store.tasks = none ∧
    (wEmpty.get_task 5 = none ∧
     wEmpty.update_task 5 none none none none none false none ⟨0, 0⟩ =
       (none, wEmpty) ∧
     wEmpty.delete_task 5 = (false, wEmpty) ∧
     (wEmpty.delete_task 5).2.delete_task 5 = (false, (wEmpty.delete_task 5).2)) :=
  ⟨by decide,
   claim_c8_absent_id wEmpty 5 none none none none none false none ⟨0, 0⟩ (by decide)⟩

/-- Claim C9, as stated, is false: update_task checks the provided
title only against None, not against emptiness, so an empty-string
title overwrites the stored title.  Concretely, updating task 1 of
wOne (titled "Write report") with title = "" leaves the stored title
equal to "" rather than "Write report". -/
theorem claim_c9_counterexample :
    ((wOne.update_task 1 (some "") none none none none false none
        ⟨60, 0⟩).1).map Task.title = some "" ∧
    (dictGet 1 (wOne.update_task 1 (some "") none none none none false none
        ⟨60, 0⟩).2.store.tasks).map Task.title = some "" ∧
    ¬ (dictGet 1 (wOne.update_task 1 (some "") none none none none false none
        ⟨60, 0⟩).2.store.tasks).map Task.title = some "Write report" := by
  refine ⟨rfl, rfl, ?_⟩
  decide

/-- Claim C9 amended: a provided title — the empty string included — is
not re-validated: update_task overwrites the stored title with exactly
the provided value.  (Empty-as-no-op exists only in the CLI layers,
which substitute the current title before calling the store.) -/
theorem claim_c9_amended (w : World) (task_id : Nat) (t : Task) (v : String)
    (description : Option String) (priority : Option Priority)
    (status : Option Status) (due_date : Option DateTime) (cl : Bool)
    (tags : Option (List String)) (now : DateTime)
    (h : dictGet task_id w.store.tasks = some t) :
    ((w.update_task task_id (some v) description priority status due_date cl tags
        now).1).map Task.title = some v := by
  unfold World.update_task
  rw [h]
  cases cl <;> cases due_date <;> rfl

/-- Witness for C9 amended, with the empty string as the provided
title. -/
theorem claim_c9_amended_witness :
    dictGet 1 wOne.store.tasks = some taskOne ∧
    ((wOne.update_task 1 (some "") none none none none false none
        ⟨60, 0⟩).1).map Task.title = some "" :=
  ⟨by decide,
   claim_c9_amended wOne 1 taskOne "" none none none none false none ⟨60, 0⟩
     (by decide)⟩

/-- Claim C10: updating a present task with no field arguments at all
still produces the old task with only updated_at refreshed to now,
stores it back, and re-persists the collection to the backing file. -/
theorem claim_c10_touch_update (w : World) (task_id : Nat) (t : Task)
    (now : DateTime) (h : dictGet task_id w.store.tasks = some t) :
    w.update_task task_id none none none none none false none now =
      (some { t with updated_at := now },
       ⟨{ w.store with
            tasks := dictInsert task_id { t with updated_at := now } w.store.tasks },
        TaskStore.persist
          { w.store with
              tasks := dictInsert task_id { t with updated_at := now }
                w.store.tasks }⟩) := by
  unfold World.update_task
  rw [h]
  rfl

/-- Witness for C10 on task 1 of wOne. -/
theorem claim_c10_witness :
    dictGet 1 wOne.store.tasks = some taskOne ∧
    wOne.update_task 1 none none none none none false none ⟨61, 0⟩ =
      (some { taskOne with updated_at := ⟨61, 0⟩ },
       ⟨{ wOne.store with
            tasks := dictInsert 1 { taskOne with updated_at := ⟨61, 0⟩ }
              wOne.store.tasks },
        TaskStore.persist
          { wOne.store with
              tasks := dictInsert 1 { taskOne with updated_at := ⟨61, 0⟩ }
                wOne.store.tasks }⟩) :=
  ⟨by decide, claim_c10_touch_update wOne 1 taskOne ⟨61, 0⟩ (by decide)⟩

end Hackathon
